import Mathlib

/-!
Verification development for the WaveSpeed Go SDK.

The SDK contains two parallel client implementations:
a functional-options client in package api (api/client.go) and a
pointer-options client in package wavespeed (wavespeed.go).  Both are
embedded here.  HTTP transport is modelled by oracles: a function from
the attempt index to the outcome of one http Client.Do call, which is
either a transport-level error (carrying the Go error message) or an
HTTP response (status code, raw body, and the result of JSON-decoding
the body).  Wall-clock time in the poll loop of api wait is modelled by
an oracle giving the elapsed seconds at the start of each iteration;
durations are rationals.  Every loop is given fuel; a run that does not
terminate within the fuel is the Option none.
-/

deriving instance DecidableEq for Except

namespace WaveSpeed

/-- Whether the list n occurs as a leading block of l
(the Go strings.HasPrefix on rune lists). -/
def listPrefixOf : List Char → List Char → Bool
  | [], _ => true
  | _ :: _, [] => false
  | a :: as, b :: bs => a = b && listPrefixOf as bs

/-- Whether the list n occurs contiguously anywhere inside l
(the Go strings.Contains on rune lists). -/
def listInfixOf (n : List Char) : List Char → Bool
  | [] => listPrefixOf n []
  | b :: bs => listPrefixOf n (b :: bs) || listInfixOf n bs

/-- Go strings.ToLower restricted to the character data of a string. -/
def lowerChars (l : List Char) : List Char := l.map Char.toLower

/-- Go strings.Contains on strings. -/
def strContains (hay needle : String) : Bool := listInfixOf needle.toList hay.toList

namespace Api

/-- Configuration fields of api.Client (api/client.go).  Fields that never
influence the submit/poll/retry state machine (baseURL, connectionTimeout)
are carried for completeness but unused. -/
structure Client where
  apiKey : String
  baseURL : String
  connectionTimeout : ℚ
  maxRetries : Nat
  maxConnectionRetries : Nat
  retryInterval : ℚ
  deriving DecidableEq

/-- The decoded data object of a prediction response (struct prediction in
api/client.go).  A JSON field that is absent decodes to the zero value, so
id, status and error are plain strings and outputs is a list (Go nil slice
and empty slice are not distinguished). -/
structure Prediction where
  id : String
  model : String
  status : String
  outputs : List String
  error : String
  deriving DecidableEq

/-- Outcome of one http Client.Do call inside api submit: a transport error
(err != nil from Do) or an HTTP response with status code, raw body text,
and the JSON decode of the body into predictionResponse (none = decode
error). -/
inductive SubmitExchange where
  | transportErr (msg : String)
  | httpResp (code : Nat) (body : String) (dec : Option Prediction)
  deriving DecidableEq

/-- Errors produced by api submit, mirroring the error values constructed in
api/client.go. -/
inductive SubmitErr where
  | noApiKey
  | connExhausted (attempts : Nat) (last : String)
  | httpStatus (code : Nat) (body : String)
  | decodeFail
  | noRequestId
  deriving DecidableEq

/-- The Go error message of each api submit error, as built by fmt.Errorf
in api/client.go.  The message of a json decode failure comes from
encoding/json and is abstracted. -/
def SubmitErr.msg : SubmitErr → String
  | .noApiKey =>
      "API key is required. Set WAVESPEED_API_KEY environment variable or pass api_key to Client()"
  | .connExhausted n last =>
      "failed to submit prediction after " ++ Nat.repr n ++ " attempts: " ++ last
  | .httpStatus code body =>
      "failed to submit prediction: HTTP " ++ Nat.repr code ++ ": " ++ body
  | .decodeFail => "json decode error"
  | .noRequestId => "no request ID in response"

/-- Result of api submit: the Go tuple (requestID, syncResult, err) together
with the number of Do calls made and the sleeps taken between connection
retries. -/
structure SubmitOut where
  res : Except SubmitErr (String × Option Prediction)
  attempts : Nat
  delays : List ℚ
  deriving DecidableEq

/-- Handling of a received HTTP response in api submit (api/client.go lines
278-304): non-200 status is an immediate error; otherwise decode; in sync
mode return the data object as the sync result map; in async mode an empty
id is an error and otherwise the request id is returned. -/
def submitRespond (sync : Bool) (code : Nat) (body : String) (dec : Option Prediction) :
    Except SubmitErr (String × Option Prediction) :=
  if code ≠ 200 then .error (.httpStatus code body)
  else
    match dec with
    | none => .error .decodeFail
    | some p =>
      if sync then .ok ("", some p)
      else if p.id = "" then .error .noRequestId
      else .ok (p.id, none)

/-- The connection-retry loop of api submit (api/client.go lines 242-307).
retry is the loop counter, fuel = maxConnectionRetries + 1 - retry keeps the
recursion structural; the fuel-0 case corresponds to the unreachable return
after the loop. -/
def submitAux (c : Client) (sync : Bool) (o : Nat → SubmitExchange) :
    Nat → Nat → SubmitOut
  | _, 0 => ⟨.error (.connExhausted (c.maxConnectionRetries + 1) ""), 0, []⟩
  | retry, fuel + 1 =>
    match o retry with
    | .transportErr m =>
      if retry < c.maxConnectionRetries then
        let rest := submitAux c sync o (retry + 1) fuel
        ⟨rest.res, rest.attempts + 1, c.retryInterval * ((retry : ℚ) + 1) :: rest.delays⟩
      else ⟨.error (.connExhausted (c.maxConnectionRetries + 1) m), 1, []⟩
    | .httpResp code body dec => ⟨submitRespond sync code body dec, 1, []⟩

/-- api submit (api/client.go lines 215-308).  The model argument only forms
the request URL in the source and is not otherwise inspected: submit performs
no validation of it.  The API-key check of getHeaders runs before any Do
call; since its outcome cannot change between iterations it is hoisted in
front of the loop. -/
def submit (c : Client) (model : String) (sync : Bool) (o : Nat → SubmitExchange) : SubmitOut :=
  if c.apiKey = "" then ⟨.error .noApiKey, 0, []⟩
  else submitAux c sync o 0 (c.maxConnectionRetries + 1)

/-- The data object of a poll response as read by api wait: the dynamic map
access data of result, with status as data status when that field holds a
string, the outputs value when the key is present, and the error field when
it holds a string. -/
structure PollData where
  status : Option String
  outputs : Option (List String)
  errMsg : Option String
  deriving DecidableEq

/-- The JSON decode of a poll response body into map string to any: the data
key when it holds a map. -/
structure RespMap where
  data : Option PollData
  deriving DecidableEq

/-- Outcome of one http Client.Do call inside api getResult. -/
inductive PollExchange where
  | transportErr (msg : String)
  | httpResp (code : Nat) (body : String) (dec : Option RespMap)
  deriving DecidableEq

/-- Errors produced by api getResult, mirroring api/client.go. -/
inductive GetErr where
  | noApiKey
  | connExhausted (reqId : String) (attempts : Nat) (last : String)
  | httpStatus (reqId : String) (code : Nat) (body : String)
  | decodeFail
  deriving DecidableEq

/-- The Go error message of each api getResult error. -/
def GetErr.msg : GetErr → String
  | .noApiKey =>
      "API key is required. Set WAVESPEED_API_KEY environment variable or pass api_key to Client()"
  | .connExhausted reqId n last =>
      "failed to get result for task " ++ reqId ++ " after " ++ Nat.repr n ++ " attempts: " ++ last
  | .httpStatus reqId code body =>
      "failed to get result for task " ++ reqId ++ ": HTTP " ++ Nat.repr code ++ ": " ++ body
  | .decodeFail => "json decode error"

/-- Result of api getResult with its Do-call count and retry sleeps. -/
structure GetOut where
  res : Except GetErr RespMap
  attempts : Nat
  delays : List ℚ
  deriving DecidableEq

/-- Handling of a received HTTP response in api getResult (api/client.go
lines 358-368). -/
def getRespond (reqId : String) (code : Nat) (body : String) (dec : Option RespMap) :
    Except GetErr RespMap :=
  if code ≠ 200 then .error (.httpStatus reqId code body)
  else
    match dec with
    | none => .error .decodeFail
    | some m => .ok m

/-- The connection-retry loop of api getResult (api/client.go lines
322-371), structured exactly as submitAux. -/
def getResultAux (c : Client) (reqId : String) (o : Nat → PollExchange) :
    Nat → Nat → GetOut
  | _, 0 => ⟨.error (.connExhausted reqId (c.maxConnectionRetries + 1) ""), 0, []⟩
  | retry, fuel + 1 =>
    match o retry with
    | .transportErr m =>
      if retry < c.maxConnectionRetries then
        let rest := getResultAux c reqId o (retry + 1) fuel
        ⟨rest.res, rest.attempts + 1, c.retryInterval * ((retry : ℚ) + 1) :: rest.delays⟩
      else ⟨.error (.connExhausted reqId (c.maxConnectionRetries + 1) m), 1, []⟩
    | .httpResp code body dec => ⟨getRespond reqId code body dec, 1, []⟩

/-- api getResult (api/client.go lines 310-372), API-key check hoisted as in
submit. -/
def getResult (c : Client) (reqId : String) (o : Nat → PollExchange) : GetOut :=
  if c.apiKey = "" then ⟨.error .noApiKey, 0, []⟩
  else getResultAux c reqId o 0 (c.maxConnectionRetries + 1)

/-- Whether a getResult outcome is a well-formed non-terminal poll response:
decoded, with a data map and a string status that is neither completed nor
failed. -/
def nonTerminalPoll (g : GetOut) : Bool :=
  match g.res with
  | .error _ => false
  | .ok m =>
    match m.data with
    | none => false
    | some d =>
      match d.status with
      | none => false
      | some st => !(st == "completed" || st == "failed")

/-- Errors produced by api wait (api/client.go lines 374-418): a propagated
getResult error, the two malformed-response errors, the terminal-failure
error and the overall-timeout error. -/
inductive WaitErr where
  | getErr (e : GetErr)
  | invalidFormat
  | missingStatus
  | taskFailed (reqId : String) (msg : String)
  | timedOut (timeout : ℚ) (reqId : String)
  deriving DecidableEq

/-- The Go error message of each api wait error.  The timeout seconds are
printed with percent .0f in the source; the rational is rendered directly
here. -/
def WaitErr.msg : WaitErr → String
  | .getErr e => e.msg
  | .invalidFormat => "invalid response format"
  | .missingStatus => "missing status in response"
  | .taskFailed reqId m => "prediction failed (task_id: " ++ reqId ++ "): " ++ m
  | .timedOut t reqId =>
      "prediction timed out after " ++ toString t ++ " seconds (task_id: " ++ reqId ++ ")"

/-- The service-supplied error message with the Go default: data error when
it is a non-empty string, otherwise Unknown error (api/client.go lines
409-412 and 466-469). -/
def defaultErrMsg : Option String → String
  | some e => if e = "" then "Unknown error" else e
  | none => "Unknown error"

/-- Result of api wait: the normalized outputs or an error, and the number
of getResult calls issued. -/
structure WaitOut where
  res : Except WaitErr (List String)
  polls : Nat
  deriving DecidableEq

/-- The poll loop of api wait (api/client.go lines 374-418).  k is the
iteration index; elapsed k models time.Since(startTime) in seconds at the
start of iteration k; o k is the transport oracle of the getResult call of
iteration k.  The deadline is checked before the poll exchange.  A status
other than completed and failed falls through to the sleep and the next
iteration. -/
def waitAux (c : Client) (reqId : String) (timeout : ℚ)
    (elapsed : Nat → ℚ) (o : Nat → Nat → PollExchange) :
    Nat → Nat → Option WaitOut
  | _, 0 => none
  | k, fuel + 1 =>
    if 0 < timeout ∧ timeout ≤ elapsed k then
      some ⟨.error (.timedOut timeout reqId), 0⟩
    else
      let g := getResult c reqId (o k)
      match g.res with
      | .error e => some ⟨.error (.getErr e), 1⟩
      | .ok m =>
        match m.data with
        | none => some ⟨.error .invalidFormat, 1⟩
        | some d =>
          match d.status with
          | none => some ⟨.error .missingStatus, 1⟩
          | some st =>
            if st = "completed" then
              some ⟨.ok (d.outputs.getD []), 1⟩
            else if st = "failed" then
              some ⟨.error (.taskFailed reqId (defaultErrMsg d.errMsg)), 1⟩
            else
              match waitAux c reqId timeout elapsed o (k + 1) fuel with
              | none => none
              | some rest => some ⟨rest.res, rest.polls + 1⟩

/-- api wait started at iteration 0.  The pollInterval only determines sleep
lengths between iterations and does not influence control flow, so it is not
a parameter of the model. -/
def wait (c : Client) (reqId : String) (timeout : ℚ)
    (elapsed : Nat → ℚ) (o : Nat → Nat → PollExchange) (fuel : Nat) : Option WaitOut :=
  waitAux c reqId timeout elapsed o 0 fuel

/-- api isRetryableError (api/client.go lines 420-430) on the message of a
non-nil error: lowercase the message and test the four substrings. -/
def isRetryableError (msg : String) : Bool :=
  let e := lowerChars msg.toList
  listInfixOf "timeout".toList e || listInfixOf "connection".toList e ||
    listInfixOf "http 5".toList e || listInfixOf "429".toList e

/-- Per-task-attempt transport behaviour for api Run: the submit transport
oracle, the per-poll-iteration transport oracles of the wait phase, and the
elapsed-time oracle of the wait phase. -/
structure AttemptOracle where
  submitO : Nat → SubmitExchange
  pollO : Nat → Nat → PollExchange
  elapsed : Nat → ℚ

/-- Errors surfaced by api Run: a submit error (the value classified by
isRetryableError), a wait error returned unchanged, or the sync-mode
prediction-failed error. -/
inductive RunErr where
  | submitErr (e : SubmitErr)
  | waitErr (e : WaitErr)
  | syncFailed (reqId : String) (msg : String)
  deriving DecidableEq

/-- Result of api Run with its trace: number of submit calls (full task
attempts), total Do calls made by those submits, total poll exchanges, and
the task-level back-off sleeps. -/
structure RunOut where
  res : Except RunErr (List String)
  submits : Nat
  exchanges : Nat
  polls : Nat
  taskDelays : List ℚ
  deriving DecidableEq

/-- The sync-mode result extraction of api Run (api/client.go lines
457-482), applied to the sync result of a successful submit: a missing data
map yields empty outputs; a status other than completed yields the
prediction-failed error with the id defaulting to unknown and the message
defaulting to Unknown error; otherwise the outputs. -/
def runSyncExtract (syncRes : Option Prediction) : Except RunErr (List String) :=
  match syncRes with
  | none => .ok []
  | some p =>
    if p.status ≠ "completed" then
      .error (.syncFailed (if p.id = "" then "unknown" else p.id)
        (if p.error = "" then "Unknown error" else p.error))
    else .ok p.outputs

/-- The task-retry loop of api Run (api/client.go lines 452-504).  attempt
is the loop counter; fuel = taskRetries + 1 - attempt.  On submit success
the loop returns at once: sync mode extracts the result, async mode returns
the wait outcome unchanged.  On submit failure the error is classified; a
non-retryable error or an exhausted budget returns the error, otherwise the
loop sleeps retryInterval times (attempt + 1) and reruns the whole attempt. -/
def runAux (c : Client) (model : String) (sync : Bool) (timeout : ℚ)
    (taskRetries : Nat) (os : Nat → AttemptOracle) (waitFuel : Nat) :
    Nat → Nat → Option RunOut
  | _, 0 => none
  | attempt, fuel + 1 =>
    let s := submit c model sync (os attempt).submitO
    match s.res with
    | .ok (reqId, syncRes) =>
      if sync then some ⟨runSyncExtract syncRes, 1, s.attempts, 0, []⟩
      else
        match wait c reqId timeout (os attempt).elapsed (os attempt).pollO waitFuel with
        | none => none
        | some w =>
          some ⟨match w.res with
                | .ok v => .ok v
                | .error e => .error (.waitErr e), 1, s.attempts, w.polls, []⟩
    | .error e =>
      if isRetryableError e.msg = false ∨ taskRetries ≤ attempt then
        some ⟨.error (.submitErr e), 1, s.attempts, 0, []⟩
      else
        match runAux c model sync timeout taskRetries os waitFuel (attempt + 1) fuel with
        | none => none
        | some r =>
          some ⟨r.res, r.submits + 1, r.exchanges + s.attempts, r.polls,
            c.retryInterval * ((attempt : ℚ) + 1) :: r.taskDelays⟩

/-- api Run (api/client.go lines 433-504) with the per-call options already
resolved: timeout, sync flag and taskRetries are the effective values after
defaulting. -/
def run (c : Client) (model : String) (sync : Bool) (timeout : ℚ)
    (taskRetries : Nat) (os : Nat → AttemptOracle) (waitFuel : Nat) : Option RunOut :=
  runAux c model sync timeout taskRetries os waitFuel 0 (taskRetries + 1)

end Api

namespace Ws

/-- Configuration fields of wavespeed.Client (wavespeed.go) relevant to the
run state machine. -/
structure Client where
  apiKey : String
  maxRetries : Nat
  maxConnectionRetries : Nat
  retryInterval : ℚ
  pollInterval : ℚ
  waitTimeout : ℚ
  deriving DecidableEq

/-- The Prediction struct of wavespeed.go; absent JSON fields decode to the
zero value.  The opaque input field is omitted. -/
structure Prediction where
  id : String
  model : String
  status : String
  outputs : List String
  error : String
  deriving DecidableEq

/-- The predictionResponse wrapper of wavespeed.go: business code, message
and data. -/
structure PredResponse where
  code : Nat
  message : String
  data : Prediction
  deriving DecidableEq

/-- Outcome of one httpClient.Do call in wavespeed submit and getResult. -/
inductive Exchange where
  | transportErr (msg : String)
  | httpResp (status : Nat) (body : String) (dec : Option PredResponse)
  deriving DecidableEq

/-- Errors produced by the wavespeed client, mirroring wavespeed.go. -/
inductive WsErr where
  | invalidModel
  | submitConnExhausted (attempts : Nat) (last : String)
  | submitHttp (status : Nat) (body : String)
  | submitCode (code : Nat) (message : String)
  | submitDecode
  | missingPredictionId
  | getConnExhausted (attempts : Nat) (last : String)
  | getHttp (status : Nat) (body : String)
  | getCode (code : Nat) (message : String)
  | getDecode
  | timedOut (seconds : ℚ)
  deriving DecidableEq

/-- The Go error message of each wavespeed error (decode messages come from
encoding/json and are abstracted; the timeout seconds are printed with
percent .2f in the source and the rational is rendered directly). -/
def WsErr.msg : WsErr → String
  | .invalidModel => "modelID is required"
  | .submitConnExhausted n last =>
      "failed to submit prediction after " ++ Nat.repr n ++ " attempts: " ++ last
  | .submitHttp s body => "submit failed: HTTP " ++ Nat.repr s ++ ": " ++ body
  | .submitCode code m => "submit failed: code " ++ Nat.repr code ++ " message " ++ m
  | .submitDecode => "json decode error"
  | .missingPredictionId => "submit failed: missing prediction id"
  | .getConnExhausted n last =>
      "failed to get result after " ++ Nat.repr n ++ " attempts: " ++ last
  | .getHttp s body => "getResult failed: HTTP " ++ Nat.repr s ++ ": " ++ body
  | .getCode code m => "getResult failed: code " ++ Nat.repr code ++ " message " ++ m
  | .getDecode => "json decode error"
  | .timedOut t => "prediction timed out after " ++ toString t ++ "s"

/-- wavespeed isRetryable (wavespeed.go lines 529-539): case-sensitive
substring tests on the error message. -/
def isRetryable (msg : String) : Bool :=
  listInfixOf "timeout".toList msg.toList || listInfixOf "connection".toList msg.toList ||
    listInfixOf "HTTP 5".toList msg.toList || listInfixOf "HTTP 429".toList msg.toList

/-- Result of wavespeed submit with its Do-call count and retry sleeps. -/
structure SubmitOut where
  res : Except WsErr Prediction
  attempts : Nat
  delays : List ℚ
  deriving DecidableEq

/-- Handling of a received HTTP response in wavespeed submit (wavespeed.go
lines 636-658): non-200 HTTP status, then decode, then non-200 business
code, then sync returns the data directly, async requires a non-empty id. -/
def submitRespond (sync : Bool) (status : Nat) (body : String) (dec : Option PredResponse) :
    Except WsErr Prediction :=
  if status ≠ 200 then .error (.submitHttp status body)
  else
    match dec with
    | none => .error .submitDecode
    | some pr =>
      if pr.code ≠ 200 then .error (.submitCode pr.code pr.message)
      else if sync then .ok pr.data
      else if pr.data.id = "" then .error .missingPredictionId
      else .ok pr.data

/-- The connection-retry loop of wavespeed submit (wavespeed.go lines
613-661). -/
def submitAux (c : Client) (sync : Bool) (o : Nat → Exchange) :
    Nat → Nat → SubmitOut
  | _, 0 => ⟨.error (.submitConnExhausted (c.maxConnectionRetries + 1) ""), 0, []⟩
  | retry, fuel + 1 =>
    match o retry with
    | .transportErr m =>
      if retry < c.maxConnectionRetries then
        let rest := submitAux c sync o (retry + 1) fuel
        ⟨rest.res, rest.attempts + 1, c.retryInterval * ((retry : ℚ) + 1) :: rest.delays⟩
      else ⟨.error (.submitConnExhausted (c.maxConnectionRetries + 1) m), 1, []⟩
    | .httpResp status body dec => ⟨submitRespond sync status body dec, 1, []⟩

/-- wavespeed submit (wavespeed.go lines 597-662). -/
def submit (c : Client) (sync : Bool) (o : Nat → Exchange) : SubmitOut :=
  submitAux c sync o 0 (c.maxConnectionRetries + 1)

/-- Result of wavespeed getResult with its Do-call count. -/
structure GetOut where
  res : Except WsErr Prediction
  attempts : Nat
  deriving DecidableEq

/-- Handling of a received HTTP response in wavespeed getResult
(wavespeed.go lines 688-700). -/
def getRespond (status : Nat) (body : String) (dec : Option PredResponse) :
    Except WsErr Prediction :=
  if status ≠ 200 then .error (.getHttp status body)
  else
    match dec with
    | none => .error .getDecode
    | some pr =>
      if pr.code ≠ 200 then .error (.getCode pr.code pr.message)
      else .ok pr.data

/-- The connection-retry loop of wavespeed getResult (wavespeed.go lines
666-703). -/
def getResultAux (c : Client) (o : Nat → Exchange) : Nat → Nat → GetOut
  | _, 0 => ⟨.error (.getConnExhausted (c.maxConnectionRetries + 1) ""), 0⟩
  | retry, fuel + 1 =>
    match o retry with
    | .transportErr m =>
      if retry < c.maxConnectionRetries then
        let rest := getResultAux c o (retry + 1) fuel
        ⟨rest.res, rest.attempts + 1⟩
      else ⟨.error (.getConnExhausted (c.maxConnectionRetries + 1) m), 1⟩
    | .httpResp status body dec => ⟨getRespond status body dec, 1⟩

/-- wavespeed getResult (wavespeed.go lines 665-704). -/
def getResult (c : Client) (o : Nat → Exchange) : GetOut :=
  getResultAux c o 0 (c.maxConnectionRetries + 1)

/-- Per-attempt transport behaviour for wavespeed runOnce: the submit
oracle, the per-poll-iteration transport oracles, and whether the run
context deadline has fired at the start of poll iteration k. -/
structure AttemptO where
  submitO : Nat → Exchange
  pollO : Nat → Nat → Exchange
  ctxDone : Nat → Bool

/-- Result of one wavespeed runOnce attempt: the outcome and the total
number of Do calls made (submit plus polls). -/
structure OnceOut where
  res : Except WsErr Prediction
  exch : Nat
  deriving DecidableEq

/-- The poll loop of wavespeed runOnce (wavespeed.go lines 511-526).  The
context-done check precedes each getResult; the id polled is the id of the
latest prediction value, as in the source; completed and failed are both
returned as successful predictions. -/
def pollAux (c : Client) (reqTimeout : ℚ) (a : AttemptO) :
    Prediction → Nat → Nat → Option OnceOut
  | _, _, 0 => none
  | pred, k, fuel + 1 =>
    if a.ctxDone k then some ⟨.error (.timedOut reqTimeout), 0⟩
    else
      let g := getResult c (a.pollO k)
      match g.res with
      | .error e => some ⟨.error e, g.attempts⟩
      | .ok pred2 =>
        if pred2.status = "completed" || pred2.status = "failed" then
          some ⟨.ok pred2, g.attempts⟩
        else
          match pollAux c reqTimeout a pred2 (k + 1) fuel with
          | none => none
          | some rest => some ⟨rest.res, rest.exch + g.attempts⟩

/-- wavespeed runOnce (wavespeed.go lines 499-527): one full submit plus, in
async mode, one full poll sequence to a terminal state. -/
def runOnce (c : Client) (sync : Bool) (reqTimeout : ℚ) (a : AttemptO)
    (pollFuel : Nat) : Option OnceOut :=
  let s := submit c sync a.submitO
  match s.res with
  | .error e => some ⟨.error e, s.attempts⟩
  | .ok pred =>
    if sync then some ⟨.ok pred, s.attempts⟩
    else
      match pollAux c reqTimeout a pred 0 pollFuel with
      | none => none
      | some p => some ⟨p.res, p.exch + s.attempts⟩

/-- Result of wavespeed runWithContext with its trace: number of runOnce
attempts, total Do calls, and task-level back-off sleeps. -/
structure RunOut where
  res : Except WsErr Prediction
  attempts : Nat
  exchanges : Nat
  delays : List ℚ
  deriving DecidableEq

/-- The task-retry loop of wavespeed runWithContext (wavespeed.go lines
478-494): each iteration reruns the entire runOnce attempt; a retryable
failure with remaining budget sleeps retryInterval times (attempt + 1) and
retries; otherwise the last error is returned. -/
def runAux (c : Client) (sync : Bool) (reqTimeout : ℚ) (taskRetries : Nat)
    (os : Nat → AttemptO) (pollFuel : Nat) : Nat → Nat → Option RunOut
  | _, 0 => none
  | attempt, fuel + 1 =>
    match runOnce c sync reqTimeout (os attempt) pollFuel with
    | none => none
    | some once =>
      match once.res with
      | .ok pred => some ⟨.ok pred, 1, once.exch, []⟩
      | .error e =>
        if isRetryable e.msg = false ∨ taskRetries ≤ attempt then
          some ⟨.error e, 1, once.exch, []⟩
        else
          match runAux c sync reqTimeout taskRetries os pollFuel (attempt + 1) fuel with
          | none => none
          | some r =>
            some ⟨r.res, r.attempts + 1, r.exchanges + once.exch,
              c.retryInterval * ((attempt : ℚ) + 1) :: r.delays⟩

/-- wavespeed runWithContext (wavespeed.go lines 451-497) with options
resolved: the empty-model check precedes everything else, in particular any
HTTP exchange. -/
def runWithContext (c : Client) (modelId : String) (sync : Bool) (reqTimeout : ℚ)
    (taskRetries : Nat) (os : Nat → AttemptO) (pollFuel : Nat) : Option RunOut :=
  if modelId = "" then some ⟨.error .invalidModel, 0, 0, []⟩
  else runAux c sync reqTimeout taskRetries os pollFuel 0 (taskRetries + 1)

end Ws

/-! ## Shared helper lemmas -/

theorem listPrefixOf_self_append (n b : List Char) : listPrefixOf n (n ++ b) = true := by
  induction n with
  | nil => rfl
  | cons a as ih => simp [listPrefixOf, ih]

theorem listInfixOf_of_prefixOf (n l : List Char) (h : listPrefixOf n l = true) :
    listInfixOf n l = true := by
  cases l with
  | nil => simpa [listInfixOf] using h
  | cons b bs => simp [listInfixOf, h]

theorem listInfixOf_append_mid (a n b : List Char) :
    listInfixOf n (a ++ (n ++ b)) = true := by
  induction a with
  | nil => exact listInfixOf_of_prefixOf n (n ++ b) (listPrefixOf_self_append n b)
  | cons x xs ih => simp [listInfixOf, ih]

theorem toList_append (a b : String) : (a ++ b).toList = a.toList ++ b.toList := by
  show (a ++ b).data = a.data ++ b.data
  simp

theorem lowerChars_append (l1 l2 : List Char) :
    lowerChars (l1 ++ l2) = lowerChars l1 ++ lowerChars l2 := by
  simp [lowerChars]

/-- The decimal representation of a number in 500..599 starts with the digit
5 and is unchanged by lower-casing. -/
theorem repr_5xx (t : Nat) (h : t < 100) :
    ((500 + t).repr.toList.take 1 = ['5']) ∧
      lowerChars ((500 + t).repr.toList) = (500 + t).repr.toList := by
  revert t
  decide

theorem take_one_eq_cons {l : List Char} {c : Char} (h : l.take 1 = [c]) :
    ∃ l2, l = c :: l2 := by
  cases l with
  | nil => simp at h
  | cons x xs => simp at h; exact ⟨xs, by rw [h]⟩

namespace Api

/-- A message whose lower-cased character data contains the block http 5 is
classified retryable by api isRetryableError. -/
theorem isRetryableError_of_http5 (m : String)
    (h : ∃ x y, lowerChars m.toList = x ++ ("http 5".toList ++ y)) :
    isRetryableError m = true := by
  obtain ⟨x, y, hxy⟩ := h
  simp only [isRetryableError, hxy, Bool.or_eq_true]
  exact Or.inl (Or.inr (listInfixOf_append_mid x "http 5".toList y))

/-- A message whose lower-cased character data contains the block 429 is
classified retryable by api isRetryableError. -/
theorem isRetryableError_of_429 (m : String)
    (h : ∃ x y, lowerChars m.toList = x ++ ("429".toList ++ y)) :
    isRetryableError m = true := by
  obtain ⟨x, y, hxy⟩ := h
  simp only [isRetryableError, hxy, Bool.or_eq_true]
  exact Or.inr (listInfixOf_append_mid x "429".toList y)

/-- An HTTP 5xx submit status error is classified retryable: its message
contains the block http 5 after lower-casing. -/
theorem isRetryableError_httpStatus_5xx (code : Nat) (body : String)
    (h5 : 500 ≤ code) (h6 : code ≤ 599) :
    isRetryableError (SubmitErr.httpStatus code body).msg = true := by
  obtain ⟨t, ht, rfl⟩ : ∃ t, t < 100 ∧ code = 500 + t :=
    ⟨code - 500, by omega, by omega⟩
  apply isRetryableError_of_http5
  obtain ⟨hdig, hlow⟩ := repr_5xx t ht
  obtain ⟨l2, hl2⟩ := take_one_eq_cons hdig
  refine ⟨"failed to submit prediction: ".toList,
    l2 ++ lowerChars (": " ++ body).toList, ?_⟩
  have hmsg : (SubmitErr.httpStatus (500 + t) body).msg =
      "failed to submit prediction: HTTP " ++ ((500 + t).repr ++ (": " ++ body)) := by
    simp [SubmitErr.msg, String.append_assoc]
  rw [hmsg, toList_append, toList_append, lowerChars_append, lowerChars_append, hlow, hl2]
  have hstat : lowerChars "failed to submit prediction: HTTP ".toList =
      "failed to submit prediction: ".toList ++ "http ".toList := by decide
  have hfive : "http 5".toList = "http ".toList ++ ['5'] := by decide
  rw [hstat, hfive]
  simp

/-- An HTTP 429 submit status error is classified retryable: its message
contains the block 429. -/
theorem isRetryableError_httpStatus_429 (body : String) :
    isRetryableError (SubmitErr.httpStatus 429 body).msg = true := by
  apply isRetryableError_of_429
  refine ⟨lowerChars "failed to submit prediction: HTTP ".toList,
    lowerChars (": " ++ body).toList, ?_⟩
  have hmsg : (SubmitErr.httpStatus 429 body).msg =
      "failed to submit prediction: HTTP " ++ ((429 : Nat).repr ++ (": " ++ body)) := by
    simp [SubmitErr.msg, String.append_assoc]
  rw [hmsg, toList_append, toList_append, lowerChars_append, lowerChars_append]
  have h429 : lowerChars ((429 : Nat).repr.toList) = "429".toList := by decide
  rw [h429]

/-- Splitting out the retryability of an arbitrary status error in the range
covered by the C2 claim. -/
theorem isRetryableError_httpStatus_retryable (code : Nat) (body : String)
    (h : (500 ≤ code ∧ code ≤ 599) ∨ code = 429) :
    isRetryableError (SubmitErr.httpStatus code body).msg = true := by
  rcases h with ⟨h5, h6⟩ | rfl
  · exact isRetryableError_httpStatus_5xx code body h5 h6
  · exact isRetryableError_httpStatus_429 body

/-- The submit connection-retry loop with transport failures at every
attempt from the current index onward: it consumes all remaining attempts,
sleeps linearly growing delays between them, and ends in the
connection-exhausted error wrapping the last transport error. -/
theorem submitAux_allTransport (c : Client) (sync : Bool) (o : Nat → SubmitExchange)
    (m : Nat → String) :
    ∀ fuel retry, retry + fuel = c.maxConnectionRetries + 1 →
      retry ≤ c.maxConnectionRetries →
      (∀ i, retry ≤ i → i ≤ c.maxConnectionRetries → o i = .transportErr (m i)) →
      submitAux c sync o retry fuel =
        ⟨.error (.connExhausted (c.maxConnectionRetries + 1) (m c.maxConnectionRetries)),
          fuel,
          (List.range' retry (c.maxConnectionRetries - retry)).map
            (fun (i : ℕ) => c.retryInterval * ((i : ℚ) + 1))⟩ := by
  intro fuel
  induction fuel with
  | zero => intro retry hsum hle _; omega
  | succ fuel ih =>
    intro retry hsum hle ho
    have hor : o retry = .transportErr (m retry) := ho retry le_rfl hle
    by_cases hlt : retry < c.maxConnectionRetries
    · have hrec := ih (retry + 1) (by omega) (by omega)
        (fun i h1 h2 => ho i (by omega) h2)
      have hrange : List.range' retry (c.maxConnectionRetries - retry) =
          retry :: List.range' (retry + 1) (c.maxConnectionRetries - (retry + 1)) := by
        have : c.maxConnectionRetries - retry =
            (c.maxConnectionRetries - (retry + 1)) + 1 := by omega
        rw [this, List.range'_succ retry _ 1]
      simp only [submitAux, hor, if_pos hlt, hrec, hrange, List.map_cons]
    · have hretry : retry = c.maxConnectionRetries := by omega
      have hfuel : fuel = 0 := by omega
      subst hretry hfuel
      simp [submitAux, hor, hlt]

/-- The submit connection-retry loop when attempt k receives an HTTP
response after transport failures at every earlier attempt: the loop stops
at k, having made k + 1 - retry calls, and returns the response handler
outcome. -/
theorem submitAux_response (c : Client) (sync : Bool) (o : Nat → SubmitExchange)
    (m : Nat → String) (k code : Nat) (body : String) (dec : Option Prediction) :
    ∀ fuel retry, retry + fuel = c.maxConnectionRetries + 1 →
      retry ≤ k → k ≤ c.maxConnectionRetries →
      (∀ i, retry ≤ i → i < k → o i = .transportErr (m i)) →
      o k = .httpResp code body dec →
      submitAux c sync o retry fuel =
        ⟨submitRespond sync code body dec, k + 1 - retry,
          (List.range' retry (k - retry)).map
            (fun (i : ℕ) => c.retryInterval * ((i : ℚ) + 1))⟩ := by
  intro fuel
  induction fuel with
  | zero => intro retry hsum hk1 hk2 _ _; omega
  | succ fuel ih =>
    intro retry hsum hk1 hk2 ho hk
    by_cases heq : retry = k
    · subst heq
      simp [submitAux, hk, Nat.sub_self]
    · have hlt : retry < k := by omega
      have hor : o retry = .transportErr (m retry) := ho retry le_rfl hlt
      have hltM : retry < c.maxConnectionRetries := by omega
      have hrec := ih (retry + 1) (by omega) (by omega) hk2
        (fun i h1 h2 => ho i (by omega) h2) hk
      have hrange : List.range' retry (k - retry) =
          retry :: List.range' (retry + 1) (k - (retry + 1)) := by
        have : k - retry = (k - (retry + 1)) + 1 := by omega
        rw [this, List.range'_succ retry _ 1]
      have hcount : k + 1 - (retry + 1) + 1 = k + 1 - retry := by omega
      simp only [submitAux, hor, if_pos hltM, hrec, hrange, List.map_cons, hcount]

/-- api submit under all-transport failure. -/
theorem submit_allTransport (c : Client) (model : String) (sync : Bool)
    (o : Nat → SubmitExchange) (m : Nat → String)
    (hkey : c.apiKey ≠ "")
    (ho : ∀ i, i ≤ c.maxConnectionRetries → o i = .transportErr (m i)) :
    submit c model sync o =
      ⟨.error (.connExhausted (c.maxConnectionRetries + 1) (m c.maxConnectionRetries)),
        c.maxConnectionRetries + 1,
        (List.range c.maxConnectionRetries).map
          (fun (i : ℕ) => c.retryInterval * ((i : ℚ) + 1))⟩ := by
  rw [submit, if_neg hkey,
    submitAux_allTransport c sync o m (c.maxConnectionRetries + 1) 0 (by omega)
      (Nat.zero_le _) (fun i _ h2 => ho i h2),
    List.range_eq_range' c.maxConnectionRetries]
  rfl

/-- api submit when attempt k receives an HTTP response. -/
theorem submit_response (c : Client) (model : String) (sync : Bool)
    (o : Nat → SubmitExchange) (m : Nat → String) (k code : Nat) (body : String)
    (dec : Option Prediction)
    (hkey : c.apiKey ≠ "") (hk : k ≤ c.maxConnectionRetries)
    (ho : ∀ i, i < k → o i = .transportErr (m i))
    (hr : o k = .httpResp code body dec) :
    submit c model sync o =
      ⟨submitRespond sync code body dec, k + 1,
        (List.range k).map (fun (i : ℕ) => c.retryInterval * ((i : ℚ) + 1))⟩ := by
  rw [submit, if_neg hkey,
    submitAux_response c sync o m k code body dec (c.maxConnectionRetries + 1) 0
      (by omega) (Nat.zero_le _) hk (fun i _ h2 => ho i h2) hr,
    List.range_eq_range' k]
  simp

/-- The getResult connection-retry loop under all-transport failure,
mirroring submitAux_allTransport. -/
theorem getResultAux_allTransport (c : Client) (reqId : String)
    (o : Nat → PollExchange) (m : Nat → String) :
    ∀ fuel retry, retry + fuel = c.maxConnectionRetries + 1 →
      retry ≤ c.maxConnectionRetries →
      (∀ i, retry ≤ i → i ≤ c.maxConnectionRetries → o i = .transportErr (m i)) →
      getResultAux c reqId o retry fuel =
        ⟨.error (.connExhausted reqId (c.maxConnectionRetries + 1)
            (m c.maxConnectionRetries)),
          fuel,
          (List.range' retry (c.maxConnectionRetries - retry)).map
            (fun (i : ℕ) => c.retryInterval * ((i : ℚ) + 1))⟩ := by
  intro fuel
  induction fuel with
  | zero => intro retry hsum hle _; omega
  | succ fuel ih =>
    intro retry hsum hle ho
    have hor : o retry = .transportErr (m retry) := ho retry le_rfl hle
    by_cases hlt : retry < c.maxConnectionRetries
    · have hrec := ih (retry + 1) (by omega) (by omega)
        (fun i h1 h2 => ho i (by omega) h2)
      have hrange : List.range' retry (c.maxConnectionRetries - retry) =
          retry :: List.range' (retry + 1) (c.maxConnectionRetries - (retry + 1)) := by
        have : c.maxConnectionRetries - retry =
            (c.maxConnectionRetries - (retry + 1)) + 1 := by omega
        rw [this, List.range'_succ retry _ 1]
      simp only [getResultAux, hor, if_pos hlt, hrec, hrange, List.map_cons]
    · have hretry : retry = c.maxConnectionRetries := by omega
      have hfuel : fuel = 0 := by omega
      subst hretry hfuel
      simp [getResultAux, hor, hlt]

/-- The getResult connection-retry loop when attempt k receives an HTTP
response, mirroring submitAux_response. -/
theorem getResultAux_response (c : Client) (reqId : String) (o : Nat → PollExchange)
    (m : Nat → String) (k code : Nat) (body : String) (dec : Option RespMap) :
    ∀ fuel retry, retry + fuel = c.maxConnectionRetries + 1 →
      retry ≤ k → k ≤ c.maxConnectionRetries →
      (∀ i, retry ≤ i → i < k → o i = .transportErr (m i)) →
      o k = .httpResp code body dec →
      getResultAux c reqId o retry fuel =
        ⟨getRespond reqId code body dec, k + 1 - retry,
          (List.range' retry (k - retry)).map
            (fun (i : ℕ) => c.retryInterval * ((i : ℚ) + 1))⟩ := by
  intro fuel
  induction fuel with
  | zero => intro retry hsum hk1 hk2 _ _; omega
  | succ fuel ih =>
    intro retry hsum hk1 hk2 ho hk
    by_cases heq : retry = k
    · subst heq
      simp [getResultAux, hk, Nat.sub_self]
    · have hlt : retry < k := by omega
      have hor : o retry = .transportErr (m retry) := ho retry le_rfl hlt
      have hltM : retry < c.maxConnectionRetries := by omega
      have hrec := ih (retry + 1) (by omega) (by omega) hk2
        (fun i h1 h2 => ho i (by omega) h2) hk
      have hrange : List.range' retry (k - retry) =
          retry :: List.range' (retry + 1) (k - (retry + 1)) := by
        have : k - retry = (k - (retry + 1)) + 1 := by omega
        rw [this, List.range'_succ retry _ 1]
      have hcount : k + 1 - (retry + 1) + 1 = k + 1 - retry := by omega
      simp only [getResultAux, hor, if_pos hltM, hrec, hrange, List.map_cons, hcount]

/-- api getResult under all-transport failure. -/
theorem getResult_allTransport (c : Client) (reqId : String)
    (o : Nat → PollExchange) (m : Nat → String)
    (hkey : c.apiKey ≠ "")
    (ho : ∀ i, i ≤ c.maxConnectionRetries → o i = .transportErr (m i)) :
    getResult c reqId o =
      ⟨.error (.connExhausted reqId (c.maxConnectionRetries + 1)
          (m c.maxConnectionRetries)),
        c.maxConnectionRetries + 1,
        (List.range c.maxConnectionRetries).map
          (fun (i : ℕ) => c.retryInterval * ((i : ℚ) + 1))⟩ := by
  rw [getResult, if_neg hkey,
    getResultAux_allTransport c reqId o m (c.maxConnectionRetries + 1) 0 (by omega)
      (Nat.zero_le _) (fun i _ h2 => ho i h2),
    List.range_eq_range' c.maxConnectionRetries]
  rfl

/-- api getResult when attempt k receives an HTTP response. -/
theorem getResult_response (c : Client) (reqId : String) (o : Nat → PollExchange)
    (m : Nat → String) (k code : Nat) (body : String) (dec : Option RespMap)
    (hkey : c.apiKey ≠ "") (hk : k ≤ c.maxConnectionRetries)
    (ho : ∀ i, i < k → o i = .transportErr (m i))
    (hr : o k = .httpResp code body dec) :
    getResult c reqId o =
      ⟨getRespond reqId code body dec, k + 1,
        (List.range k).map (fun (i : ℕ) => c.retryInterval * ((i : ℚ) + 1))⟩ := by
  rw [getResult, if_neg hkey,
    getResultAux_response c reqId o m k code body dec (c.maxConnectionRetries + 1) 0
      (by omega) (Nat.zero_le _) hk (fun i _ h2 => ho i h2) hr,
    List.range_eq_range' k]
  simp

theorem nonTerminalPoll_spec (g : GetOut) (h : nonTerminalPoll g = true) :
    ∃ m d st, g.res = .ok m ∧ m.data = some d ∧ d.status = some st ∧
      st ≠ "completed" ∧ st ≠ "failed" := by
  rcases hres : g.res with e | m
  · simp [nonTerminalPoll, hres] at h
  simp only [nonTerminalPoll, hres] at h
  rcases hdata : m.data with _ | d
  · simp [hdata] at h
  simp only [hdata] at h
  rcases hst : d.status with _ | st
  · simp [hst] at h
  simp only [hst] at h
  simp at h
  exact ⟨m, d, st, rfl, hdata, hst, h.1, h.2⟩

/-- One wait iteration on a well-formed non-terminal response: the loop
sleeps and continues with the next iteration, adding one poll to the count. -/
theorem waitAux_step_nonterminal (c : Client) (reqId : String) (timeout : ℚ)
    (elapsed : Nat → ℚ) (o : Nat → Nat → PollExchange) (k fuel : Nat)
    (m : RespMap) (d : PollData) (st : String)
    (hd : ¬(0 < timeout ∧ timeout ≤ elapsed k))
    (hres : (getResult c reqId (o k)).res = .ok m)
    (hdata : m.data = some d) (hst : d.status = some st)
    (hc : st ≠ "completed") (hf : st ≠ "failed") :
    waitAux c reqId timeout elapsed o k (fuel + 1) =
      Option.map (fun w => ⟨w.res, w.polls + 1⟩)
        (waitAux c reqId timeout elapsed o (k + 1) fuel) := by
  simp only [waitAux, if_neg hd, hres, hdata, hst, if_neg hc, if_neg hf]
  cases waitAux c reqId timeout elapsed o (k + 1) fuel <;> rfl

/-- One wait iteration on a completed response: the loop returns the outputs
of that response, defaulting to the empty sequence. -/
theorem waitAux_step_completed (c : Client) (reqId : String) (timeout : ℚ)
    (elapsed : Nat → ℚ) (o : Nat → Nat → PollExchange) (k fuel : Nat)
    (m : RespMap) (d : PollData)
    (hd : ¬(0 < timeout ∧ timeout ≤ elapsed k))
    (hres : (getResult c reqId (o k)).res = .ok m)
    (hdata : m.data = some d) (hst : d.status = some "completed") :
    waitAux c reqId timeout elapsed o k (fuel + 1) =
      some ⟨.ok (d.outputs.getD []), 1⟩ := by
  simp [waitAux, if_neg hd, hres, hdata, hst]

/-- One wait iteration on a failed response: the loop returns the
task-failed error with the defaulted service message. -/
theorem waitAux_step_failed (c : Client) (reqId : String) (timeout : ℚ)
    (elapsed : Nat → ℚ) (o : Nat → Nat → PollExchange) (k fuel : Nat)
    (m : RespMap) (d : PollData)
    (hd : ¬(0 < timeout ∧ timeout ≤ elapsed k))
    (hres : (getResult c reqId (o k)).res = .ok m)
    (hdata : m.data = some d) (hst : d.status = some "failed") :
    waitAux c reqId timeout elapsed o k (fuel + 1) =
      some ⟨.error (.taskFailed reqId (defaultErrMsg d.errMsg)), 1⟩ := by
  simp [waitAux, if_neg hd, hres, hdata, hst]

/-- One wait iteration with the deadline reached: the loop fails with the
timeout error without issuing the poll of this iteration. -/
theorem waitAux_step_timeout (c : Client) (reqId : String) (timeout : ℚ)
    (elapsed : Nat → ℚ) (o : Nat → Nat → PollExchange) (k fuel : Nat)
    (ht : 0 < timeout) (he : timeout ≤ elapsed k) :
    waitAux c reqId timeout elapsed o k (fuel + 1) =
      some ⟨.error (.timedOut timeout reqId), 0⟩ := by
  simp [waitAux, if_pos (And.intro ht he)]

/-- Skipping n consecutive well-formed non-terminal iterations adds n to the
poll count and leaves the rest of the loop unchanged. -/
theorem waitAux_skipN (c : Client) (reqId : String) (timeout : ℚ)
    (elapsed : Nat → ℚ) (o : Nat → Nat → PollExchange) :
    ∀ n j fuel,
      (∀ i, i < n → ¬(0 < timeout ∧ timeout ≤ elapsed (j + i)) ∧
        nonTerminalPoll (getResult c reqId (o (j + i))) = true) →
      waitAux c reqId timeout elapsed o j (n + fuel) =
        Option.map (fun w => ⟨w.res, w.polls + n⟩)
          (waitAux c reqId timeout elapsed o (j + n) fuel) := by
  intro n
  induction n with
  | zero =>
    intro j fuel _
    simp only [Nat.zero_add, Nat.add_zero]
    cases waitAux c reqId timeout elapsed o j fuel <;> simp
  | succ n ih =>
    intro j fuel h
    obtain ⟨hd0, hnt0⟩ := h 0 (by omega)
    obtain ⟨m, d, st, hres, hdata, hst, hc, hf⟩ :=
      nonTerminalPoll_spec _ (by simpa using hnt0)
    have harith : n + 1 + fuel = (n + fuel) + 1 := by omega
    rw [harith, waitAux_step_nonterminal c reqId timeout elapsed o j (n + fuel) m d st
      (by simpa using hd0) hres hdata hst hc hf]
    rw [ih (j + 1) fuel (fun i hi => by
      have := h (i + 1) (by omega)
      constructor
      · have harr : j + 1 + i = j + (i + 1) := by omega
        rw [harr]; exact this.1
      · have harr : j + 1 + i = j + (i + 1) := by omega
        rw [harr]; exact this.2)]
    have harr2 : j + 1 + n = j + (n + 1) := by omega
    rw [harr2]
    cases waitAux c reqId timeout elapsed o (j + (n + 1)) fuel <;> simp [Nat.add_assoc]

/-- One Run iteration whose submit succeeds in async mode: Run returns the
wait outcome unchanged (in particular without classifying its error), with
the submit Do-calls recorded. -/
theorem runAux_ok_async (c : Client) (model : String) (timeout : ℚ)
    (taskRetries : Nat) (os : Nat → AttemptOracle) (waitFuel attempt fuel : Nat)
    (reqId : String) (syncRes : Option Prediction)
    (hs : (submit c model false (os attempt).submitO).res = .ok (reqId, syncRes)) :
    runAux c model false timeout taskRetries os waitFuel attempt (fuel + 1) =
      Option.map (fun w : WaitOut =>
          RunOut.mk (match w.res with
            | .ok v => .ok v
            | .error e => .error (.waitErr e)) 1
            (submit c model false (os attempt).submitO).attempts w.polls [])
        (wait c reqId timeout (os attempt).elapsed (os attempt).pollO waitFuel) := by
  simp only [runAux, hs]
  cases wait c reqId timeout (os attempt).elapsed (os attempt).pollO waitFuel <;> rfl

/-- One Run iteration whose submit succeeds in sync mode: Run returns the
extracted sync result with no poll exchange issued. -/
theorem runAux_ok_sync (c : Client) (model : String) (timeout : ℚ)
    (taskRetries : Nat) (os : Nat → AttemptOracle) (waitFuel attempt fuel : Nat)
    (reqId : String) (syncRes : Option Prediction)
    (hs : (submit c model true (os attempt).submitO).res = .ok (reqId, syncRes)) :
    runAux c model true timeout taskRetries os waitFuel attempt (fuel + 1) =
      some ⟨runSyncExtract syncRes, 1,
        (submit c model true (os attempt).submitO).attempts, 0, []⟩ := by
  simp only [runAux, hs]
  rfl

/-- One Run iteration whose submit fails with an error that is not retryable
or with the budget exhausted: Run returns the error at once. -/
theorem runAux_err_stop (c : Client) (model : String) (sync : Bool) (timeout : ℚ)
    (taskRetries : Nat) (os : Nat → AttemptOracle) (waitFuel attempt fuel : Nat)
    (e : SubmitErr)
    (hs : (submit c model sync (os attempt).submitO).res = .error e)
    (hcond : isRetryableError e.msg = false ∨ taskRetries ≤ attempt) :
    runAux c model sync timeout taskRetries os waitFuel attempt (fuel + 1) =
      some ⟨.error (.submitErr e), 1,
        (submit c model sync (os attempt).submitO).attempts, 0, []⟩ := by
  simp only [runAux, hs, if_pos hcond]

/-- One Run iteration whose submit fails retryably with budget remaining:
Run sleeps the task back-off and reruns the whole attempt at the next
index. -/
theorem runAux_err_retry (c : Client) (model : String) (sync : Bool) (timeout : ℚ)
    (taskRetries : Nat) (os : Nat → AttemptOracle) (waitFuel attempt fuel : Nat)
    (e : SubmitErr)
    (hs : (submit c model sync (os attempt).submitO).res = .error e)
    (hr : isRetryableError e.msg = true) (ha : attempt < taskRetries) :
    runAux c model sync timeout taskRetries os waitFuel attempt (fuel + 1) =
      Option.map (fun r : RunOut =>
          RunOut.mk r.res (r.submits + 1)
            (r.exchanges + (submit c model sync (os attempt).submitO).attempts) r.polls
            (c.retryInterval * ((attempt : ℚ) + 1) :: r.taskDelays))
        (runAux c model sync timeout taskRetries os waitFuel (attempt + 1) fuel) := by
  have hcond : ¬(isRetryableError e.msg = false ∨ taskRetries ≤ attempt) := by
    simp [hr]; omega
  simp only [runAux, hs, if_neg hcond]
  cases runAux c model sync timeout taskRetries os waitFuel (attempt + 1) fuel <;> rfl

/-- The Run task-retry loop when every submit attempt is answered by a
single HTTP response whose status is 5xx or 429: every attempt consumes
exactly one exchange, every failure is retryable, and the loop walks the
whole budget ending with the last status error. -/
theorem runAux_allRetryableStatus (c : Client) (model : String) (sync : Bool)
    (timeout : ℚ) (N : Nat) (os : Nat → AttemptOracle) (waitFuel : Nat)
    (sc : Nat → Nat) (bd : Nat → String) (dc : Nat → Option Prediction)
    (hkey : c.apiKey ≠ "")
    (ho : ∀ a, a ≤ N → (os a).submitO 0 = .httpResp (sc a) (bd a) (dc a))
    (hcode : ∀ a, a ≤ N → (500 ≤ sc a ∧ sc a ≤ 599) ∨ sc a = 429) :
    ∀ fuel attempt, attempt + fuel = N + 1 → attempt ≤ N →
      runAux c model sync timeout N os waitFuel attempt fuel =
        some ⟨.error (.submitErr (.httpStatus (sc N) (bd N))), fuel, fuel, 0,
          (List.range' attempt (N - attempt)).map
            (fun (i : ℕ) => c.retryInterval * ((i : ℚ) + 1))⟩ := by
  intro fuel
  induction fuel with
  | zero => intro attempt hsum hle; omega
  | succ fuel ih =>
    intro attempt hsum hle
    have hne : sc attempt ≠ 200 := by rcases hcode attempt hle with ⟨h1, h2⟩ | h3 <;> omega
    have hsub := submit_response c model sync (os attempt).submitO (fun _ => "") 0
      (sc attempt) (bd attempt) (dc attempt) hkey (Nat.zero_le _)
      (fun i hi => absurd hi (Nat.not_lt_zero i)) (ho attempt hle)
    have hres : (submit c model sync (os attempt).submitO).res =
        .error (.httpStatus (sc attempt) (bd attempt)) := by
      rw [hsub]; simp [submitRespond, hne]
    have hatt : (submit c model sync (os attempt).submitO).attempts = 1 := by
      rw [hsub]
    by_cases heq : attempt = N
    · have hfuel : fuel = 0 := by omega
      subst hfuel
      subst heq
      rw [runAux_err_stop c model sync timeout attempt os waitFuel attempt 0
        (.httpStatus (sc attempt) (bd attempt)) hres (Or.inr le_rfl), hatt]
      simp
    · have hlt : attempt < N := by omega
      rw [runAux_err_retry c model sync timeout N os waitFuel attempt fuel
        (.httpStatus (sc attempt) (bd attempt)) hres
        (isRetryableError_httpStatus_retryable (sc attempt) (bd attempt)
          (hcode attempt hle)) hlt,
        ih (attempt + 1) (by omega) (by omega), hatt]
      have hrange : List.range' attempt (N - attempt) =
          attempt :: List.range' (attempt + 1) (N - (attempt + 1)) := by
        have : N - attempt = (N - (attempt + 1)) + 1 := by omega
        rw [this, List.range'_succ attempt _ 1]
      simp [hrange]

/-- A full async Run whose first submit succeeds and whose poll sequence
reaches a terminal state at iteration k after k well-formed non-terminal
responses: the result is determined by the terminal response alone, one
submit and k + 1 polls are issued, and no task back-off is slept. -/
theorem run_async_terminal (c : Client) (model : String) (timeout : ℚ)
    (taskRetries : Nat) (os : Nat → AttemptOracle) (waitFuel : Nat)
    (b : String) (pred : Prediction) (k : Nat) (m : RespMap) (d : PollData) (st : String)
    (hkey : c.apiKey ≠ "")
    (hsub : (os 0).submitO 0 = .httpResp 200 b (some pred))
    (hid : pred.id ≠ "")
    (hnt : ∀ i, i < k → ¬(0 < timeout ∧ timeout ≤ (os 0).elapsed i) ∧
        nonTerminalPoll (getResult c pred.id ((os 0).pollO i)) = true)
    (hdk : ¬(0 < timeout ∧ timeout ≤ (os 0).elapsed k))
    (hres : (getResult c pred.id ((os 0).pollO k)).res = .ok m)
    (hdata : m.data = some d) (hst : d.status = some st)
    (hterm : st = "completed" ∨ st = "failed")
    (hfuel : k < waitFuel) :
    run c model false timeout taskRetries os waitFuel =
      some ⟨if st = "completed" then .ok (d.outputs.getD [])
            else .error (.waitErr (.taskFailed pred.id (defaultErrMsg d.errMsg))),
        1, 1, k + 1, []⟩ := by
  have hsubmit := submit_response c model false (os 0).submitO (fun _ => "") 0 200 b
    (some pred) hkey (Nat.zero_le _) (fun i hi => absurd hi (Nat.not_lt_zero i)) hsub
  have hresS : (submit c model false (os 0).submitO).res = .ok (pred.id, none) := by
    rw [hsubmit]; simp [submitRespond, hid]
  have hattS : (submit c model false (os 0).submitO).attempts = 1 := by rw [hsubmit]
  have hwf : waitFuel = k + ((waitFuel - k - 1) + 1) := by omega
  have hskip := waitAux_skipN c pred.id timeout (os 0).elapsed (os 0).pollO k 0
    ((waitFuel - k - 1) + 1) (fun i hi => by simpa using hnt i hi)
  have hterm1 : waitAux c pred.id timeout (os 0).elapsed (os 0).pollO (0 + k)
      ((waitFuel - k - 1) + 1) =
      some ⟨if st = "completed" then .ok (d.outputs.getD [])
            else .error (.taskFailed pred.id (defaultErrMsg d.errMsg)), 1⟩ := by
    rw [Nat.zero_add]
    rcases hterm with h | h
    · subst h
      rw [waitAux_step_completed c pred.id timeout (os 0).elapsed (os 0).pollO k
        (waitFuel - k - 1) m d hdk hres hdata hst]
      simp
    · subst h
      rw [waitAux_step_failed c pred.id timeout (os 0).elapsed (os 0).pollO k
        (waitFuel - k - 1) m d hdk hres hdata hst]
      simp
  have hwait : wait c pred.id timeout (os 0).elapsed (os 0).pollO waitFuel =
      some ⟨if st = "completed" then .ok (d.outputs.getD [])
            else .error (.taskFailed pred.id (defaultErrMsg d.errMsg)), k + 1⟩ := by
    rw [wait, hwf, hskip, hterm1]
    simp [Nat.add_comm]
  rw [run, runAux_ok_async c model timeout taskRetries os waitFuel 0 taskRetries
    pred.id none hresS, hwait, hattS]
  rcases hterm with h | h <;> subst h <;> simp

end Api

namespace Ws

/-- One runWithContext iteration whose runOnce attempt succeeds: the loop
returns the prediction at once. -/
theorem runAux_ok (c : Client) (sync : Bool) (reqTimeout : ℚ) (taskRetries : Nat)
    (os : Nat → AttemptO) (pollFuel attempt fuel : Nat) (once : OnceOut)
    (pred : Prediction)
    (ho : runOnce c sync reqTimeout (os attempt) pollFuel = some once)
    (he : once.res = .ok pred) :
    runAux c sync reqTimeout taskRetries os pollFuel attempt (fuel + 1) =
      some ⟨.ok pred, 1, once.exch, []⟩ := by
  simp only [runAux, ho, he]

/-- One runWithContext iteration whose runOnce attempt fails with a
retryable error while budget remains: the loop sleeps the back-off and
reruns the entire attempt, with a fresh submit, at the next index. -/
theorem runAux_retry (c : Client) (sync : Bool) (reqTimeout : ℚ) (taskRetries : Nat)
    (os : Nat → AttemptO) (pollFuel attempt fuel : Nat) (once : OnceOut) (e : WsErr)
    (ho : runOnce c sync reqTimeout (os attempt) pollFuel = some once)
    (he : once.res = .error e)
    (hr : isRetryable e.msg = true) (ha : attempt < taskRetries) :
    runAux c sync reqTimeout taskRetries os pollFuel attempt (fuel + 1) =
      Option.map (fun r : RunOut =>
          RunOut.mk r.res (r.attempts + 1) (r.exchanges + once.exch)
            (c.retryInterval * ((attempt : ℚ) + 1) :: r.delays))
        (runAux c sync reqTimeout taskRetries os pollFuel (attempt + 1) fuel) := by
  have hcond : ¬(isRetryable e.msg = false ∨ taskRetries ≤ attempt) := by
    simp [hr]; omega
  simp only [runAux, ho, he, if_neg hcond]
  cases runAux c sync reqTimeout taskRetries os pollFuel (attempt + 1) fuel <;> rfl

/-- One runWithContext iteration whose runOnce attempt fails non-retryably
or with the budget exhausted: the loop returns the error. -/
theorem runAux_stop (c : Client) (sync : Bool) (reqTimeout : ℚ) (taskRetries : Nat)
    (os : Nat → AttemptO) (pollFuel attempt fuel : Nat) (once : OnceOut) (e : WsErr)
    (ho : runOnce c sync reqTimeout (os attempt) pollFuel = some once)
    (he : once.res = .error e)
    (hcond : isRetryable e.msg = false ∨ taskRetries ≤ attempt) :
    runAux c sync reqTimeout taskRetries os pollFuel attempt (fuel + 1) =
      some ⟨.error e, 1, once.exch, []⟩ := by
  simp only [runAux, ho, he, if_pos hcond]

end Ws

/-! ## Claim theorems -/

/-- C1: For every single HTTP exchange (submit or poll), the client retries
only on transport failure, raising the connection-exhausted error wrapping
the last transport error after exactly maxConnectionRetries + 1 attempts,
with delay retryInterval times the 1-indexed attempt number between
attempts; receipt of any HTTP response stops connection-level retrying at
once, and a non-2xx response becomes a status error carrying the code and
body without consuming a connection retry. -/
theorem c1_transport_retry_policy :
    (∀ (c : Api.Client) (model : String) (sync : Bool) (o : Nat → Api.SubmitExchange)
        (m : Nat → String),
      c.apiKey ≠ "" →
      (∀ i, i ≤ c.maxConnectionRetries → o i = .transportErr (m i)) →
      Api.submit c model sync o =
        ⟨.error (.connExhausted (c.maxConnectionRetries + 1) (m c.maxConnectionRetries)),
          c.maxConnectionRetries + 1,
          (List.range c.maxConnectionRetries).map
            (fun (i : ℕ) => c.retryInterval * ((i : ℚ) + 1))⟩) ∧
    (∀ (c : Api.Client) (model : String) (sync : Bool) (o : Nat → Api.SubmitExchange)
        (m : Nat → String) (k code : Nat) (body : String) (dec : Option Api.Prediction),
      c.apiKey ≠ "" → k ≤ c.maxConnectionRetries →
      (∀ i, i < k → o i = .transportErr (m i)) →
      o k = .httpResp code body dec → code ≠ 200 →
      Api.submit c model sync o =
        ⟨.error (.httpStatus code body), k + 1,
          (List.range k).map (fun (i : ℕ) => c.retryInterval * ((i : ℚ) + 1))⟩) ∧
    (∀ (c : Api.Client) (reqId : String) (o : Nat → Api.PollExchange) (m : Nat → String),
      c.apiKey ≠ "" →
      (∀ i, i ≤ c.maxConnectionRetries → o i = .transportErr (m i)) →
      Api.getResult c reqId o =
        ⟨.error (.connExhausted reqId (c.maxConnectionRetries + 1)
            (m c.maxConnectionRetries)),
          c.maxConnectionRetries + 1,
          (List.range c.maxConnectionRetries).map
            (fun (i : ℕ) => c.retryInterval * ((i : ℚ) + 1))⟩) ∧
    (∀ (c : Api.Client) (reqId : String) (o : Nat → Api.PollExchange)
        (m : Nat → String) (k code : Nat) (body : String) (dec : Option Api.RespMap),
      c.apiKey ≠ "" → k ≤ c.maxConnectionRetries →
      (∀ i, i < k → o i = .transportErr (m i)) →
      o k = .httpResp code body dec → code ≠ 200 →
      Api.getResult c reqId o =
        ⟨.error (.httpStatus reqId code body), k + 1,
          (List.range k).map (fun (i : ℕ) => c.retryInterval * ((i : ℚ) + 1))⟩) := by
  refine ⟨?_, ?_, ?_, ?_⟩
  · intro c model sync o m hkey ho
    exact Api.submit_allTransport c model sync o m hkey ho
  · intro c model sync o m k code body dec hkey hk ho hr hne
    rw [Api.submit_response c model sync o m k code body dec hkey hk ho hr]
    simp [Api.submitRespond, hne]
  · intro c reqId o m hkey ho
    exact Api.getResult_allTransport c reqId o m hkey ho
  · intro c reqId o m k code body dec hkey hk ho hr hne
    rw [Api.getResult_response c reqId o m k code body dec hkey hk ho hr]
    simp [Api.getRespond, hne]

/-- Witness for C1 at concrete inputs: a client with two connection retries,
all-transport-failing oracles for the exhaustion parts, and oracles
answering with a non-2xx response on the second attempt for the
stop-on-response parts. -/
theorem c1_transport_retry_policy_witness :
    Api.submit ⟨"key", "b", 10, 0, 2, 1⟩ "m" false
        (fun _ => .transportErr "connection timeout") =
      ⟨.error (.connExhausted 3 "connection timeout"), 3, [1, 2]⟩ ∧
    Api.submit ⟨"key", "b", 10, 0, 2, 1⟩ "m" false
        (fun i => if i = 0 then .transportErr "connection timeout"
                  else .httpResp 503 "Service Unavailable" none) =
      ⟨.error (.httpStatus 503 "Service Unavailable"), 2, [1]⟩ ∧
    Api.getResult ⟨"key", "b", 10, 0, 2, 1⟩ "t1"
        (fun _ => .transportErr "read timeout") =
      ⟨.error (.connExhausted "t1" 3 "read timeout"), 3, [1, 2]⟩ ∧
    Api.getResult ⟨"key", "b", 10, 0, 2, 1⟩ "t1"
        (fun i => if i = 0 then .transportErr "read timeout"
                  else .httpResp 404 "not found" none) =
      ⟨.error (.httpStatus "t1" 404 "not found"), 2, [1]⟩ := by
  refine ⟨?_, ?_, ?_, ?_⟩
  · rw [c1_transport_retry_policy.1 ⟨"key", "b", 10, 0, 2, 1⟩ "m" false _
      (fun _ => "connection timeout") (by decide) (fun i _ => rfl)]
    norm_num [List.range_succ]
  · rw [c1_transport_retry_policy.2.1 ⟨"key", "b", 10, 0, 2, 1⟩ "m" false _
      (fun _ => "connection timeout") 1 503 "Service Unavailable" none (by decide)
      (by decide) (by decide) (by decide) (by decide)]
    norm_num [List.range_succ]
  · rw [c1_transport_retry_policy.2.2.1 ⟨"key", "b", 10, 0, 2, 1⟩ "t1" _
      (fun _ => "read timeout") (by decide) (fun i _ => rfl)]
    norm_num [List.range_succ]
  · rw [c1_transport_retry_policy.2.2.2 ⟨"key", "b", 10, 0, 2, 1⟩ "t1" _
      (fun _ => "read timeout") 1 404 "not found" none (by decide) (by decide)
      (by decide) (by decide) (by decide)]
    norm_num [List.range_succ]

/-- C2: For every Run call with task-retry budget taskRetries = N whose
submit exchange is answered every time by a single HTTP response with a 5xx
or 429 status, exactly N + 1 full submit attempts occur before Run returns
the final (last) status error, with back-off retryInterval times
(attempt + 1) between attempts; each attempt makes exactly one Do call, so
the N + 1 total exchanges show that no connection-level retry is consumed by
the pure status-code failures. -/
theorem c2_status_retry_budget (c : Api.Client) (model : String) (sync : Bool)
    (timeout : ℚ) (N : Nat) (os : Nat → Api.AttemptOracle) (waitFuel : Nat)
    (sc : Nat → Nat) (bd : Nat → String) (dc : Nat → Option Api.Prediction)
    (hkey : c.apiKey ≠ "")
    (ho : ∀ a, a ≤ N → (os a).submitO 0 = .httpResp (sc a) (bd a) (dc a))
    (hcode : ∀ a, a ≤ N → (500 ≤ sc a ∧ sc a ≤ 599) ∨ sc a = 429) :
    Api.run c model sync timeout N os waitFuel =
      some ⟨.error (.submitErr (.httpStatus (sc N) (bd N))), N + 1, N + 1, 0,
        (List.range N).map (fun (i : ℕ) => c.retryInterval * ((i : ℚ) + 1))⟩ := by
  rw [Api.run, Api.runAux_allRetryableStatus c model sync timeout N os waitFuel sc bd dc
    hkey ho hcode (N + 1) 0 (by omega) (Nat.zero_le N)]
  simp [List.range_eq_range']

/-- Witness for C2: budget N = 2, submits answered with statuses 500, 429
and 503; three submit attempts, three exchanges, back-off delays 1 and 2. -/
theorem c2_status_retry_budget_witness :
    Api.run ⟨"key", "b", 10, 0, 5, 1⟩ "m" false 36000 2
      (fun a => ⟨fun _ => .httpResp (if a = 0 then 500 else if a = 1 then 429 else 503)
          "oops" none,
        fun _ _ => .transportErr "unused", fun _ => 0⟩) 1 =
      some ⟨.error (.submitErr (.httpStatus 503 "oops")), 3, 3, 0, [1, 2]⟩ := by
  rw [c2_status_retry_budget ⟨"key", "b", 10, 0, 5, 1⟩ "m" false 36000 2 _ 1
    (fun a => if a = 0 then 500 else if a = 1 then 429 else 503) (fun _ => "oops")
    (fun _ => none) (by decide) (by decide) (by decide)]
  norm_num [List.range_succ]

/-- C5: For every async Run whose first submit succeeds and whose poll
sequence reaches a terminal state at iteration k after k well-formed
non-terminal (processing-like) responses carrying arbitrary intermediate
outputs: on a completed final response Run returns exactly the outputs field
of that final response (empty when absent), never outputs of an earlier
response; on a failed response Run fails with the task-failed error carrying
the task identifier and the service message defaulted to Unknown error, and
exactly k + 1 poll exchanges are issued, none after the terminal one. -/
theorem c5_terminal_poll_outcome (c : Api.Client) (model : String) (timeout : ℚ)
    (taskRetries : Nat) (os : Nat → Api.AttemptOracle) (waitFuel : Nat)
    (b : String) (pred : Api.Prediction) (k : Nat) (m : Api.RespMap)
    (d : Api.PollData) (st : String)
    (hkey : c.apiKey ≠ "")
    (hsub : (os 0).submitO 0 = .httpResp 200 b (some pred))
    (hid : pred.id ≠ "")
    (hnt : ∀ i, i < k → ¬(0 < timeout ∧ timeout ≤ (os 0).elapsed i) ∧
        Api.nonTerminalPoll (Api.getResult c pred.id ((os 0).pollO i)) = true)
    (hdk : ¬(0 < timeout ∧ timeout ≤ (os 0).elapsed k))
    (hres : (Api.getResult c pred.id ((os 0).pollO k)).res = .ok m)
    (hdata : m.data = some d) (hst : d.status = some st)
    (hterm : st = "completed" ∨ st = "failed")
    (hfuel : k < waitFuel) :
    Api.run c model false timeout taskRetries os waitFuel =
      some ⟨if st = "completed" then .ok (d.outputs.getD [])
            else .error (.waitErr (.taskFailed pred.id (Api.defaultErrMsg d.errMsg))),
        1, 1, k + 1, []⟩ :=
  Api.run_async_terminal c model timeout taskRetries os waitFuel b pred k m d st
    hkey hsub hid hnt hdk hres hdata hst hterm hfuel

/-- Witness for C5: one processing response carrying early outputs followed
by a completed response; Run returns the final outputs only, with two poll
exchanges. -/
theorem c5_terminal_poll_outcome_witness :
    Api.run ⟨"key", "b", 10, 0, 5, 1⟩ "m" false 10 0
      (fun _ => ⟨fun _ => .httpResp 200 "body" (some ⟨"t1", "m", "processing", [], ""⟩),
        fun i _ => if i = 0 then
            .httpResp 200 "" (some ⟨some ⟨some "processing", some ["early"], none⟩⟩)
          else .httpResp 200 "" (some ⟨some ⟨some "completed", some ["final"], none⟩⟩),
        fun _ => 0⟩) 3 =
      some ⟨.ok ["final"], 1, 1, 2, []⟩ := by
  rw [c5_terminal_poll_outcome ⟨"key", "b", 10, 0, 5, 1⟩ "m" 10 0 _ 3 "body"
    ⟨"t1", "m", "processing", [], ""⟩ 1 ⟨some ⟨some "completed", some ["final"], none⟩⟩
    ⟨some "completed", some ["final"], none⟩ "completed" (by decide) (by decide)
    (by decide) (by decide) (by decide) (by decide) (by decide) (by decide)
    (Or.inl rfl) (by decide)]
  simp

/-- C6: In the wait loop the overall deadline is checked before each poll
exchange: after k non-terminal iterations each observed before the deadline,
if the elapsed time at the start of iteration k has reached or exceeded a
positive timeout, wait fails with the deadline error carrying the task
identifier and exactly k poll exchanges were issued, none at the timed-out
iteration. -/
theorem c6_deadline_checked_before_poll (c : Api.Client) (reqId : String)
    (timeout : ℚ) (elapsed : Nat → ℚ) (o : Nat → Nat → Api.PollExchange)
    (k fuel : Nat)
    (ht : 0 < timeout)
    (hnt : ∀ i, i < k → elapsed i < timeout ∧
        Api.nonTerminalPoll (Api.getResult c reqId (o i)) = true)
    (hk : timeout ≤ elapsed k) (hfuel : k < fuel) :
    Api.wait c reqId timeout elapsed o fuel =
      some ⟨.error (.timedOut timeout reqId), k⟩ := by
  have hwf : fuel = k + ((fuel - k - 1) + 1) := by omega
  rw [Api.wait, hwf, Api.waitAux_skipN c reqId timeout elapsed o k 0 ((fuel - k - 1) + 1)
    (fun i hi => by
      refine ⟨fun hcon => absurd hcon.2 (not_le.2 ?_), ?_⟩
      · simpa using (hnt i hi).1
      · simpa using (hnt i hi).2)]
  rw [Nat.zero_add, Api.waitAux_step_timeout c reqId timeout elapsed o k (fuel - k - 1)
    ht hk]
  simp

/-- Witness for C6: one non-terminal iteration before the deadline, then the
elapsed time reaches the timeout of 1 second; wait times out with exactly
one poll issued. -/
theorem c6_deadline_checked_before_poll_witness :
    Api.wait ⟨"key", "b", 10, 0, 0, 1⟩ "t1" 1 (fun i => if i = 0 then 0 else 1)
      (fun _ _ => .httpResp 200 "" (some ⟨some ⟨some "processing", none, none⟩⟩)) 3 =
      some ⟨.error (.timedOut 1 "t1"), 1⟩ :=
  c6_deadline_checked_before_poll ⟨"key", "b", 10, 0, 0, 1⟩ "t1" 1
    (fun i => if i = 0 then 0 else 1)
    (fun _ _ => .httpResp 200 "" (some ⟨some ⟨some "processing", none, none⟩⟩)) 1 3
    (by decide) (by decide) (by decide) (by decide)

/-- Counterexample to C4 as stated: the claim says the wait loop fails
immediately on a status other than processing, completed and failed; at this
concrete input the first poll response has the unrecognized status pending,
yet wait does not fail there - it polls again (two poll exchanges) and
returns the outputs of the second, completed, response.  This matches the
test TestRunTimeout in the repository, which relies on a pending status
being polled until the deadline. -/
theorem c4_counterexample :
    Api.wait ⟨"key", "b", 10, 0, 0, 1⟩ "t1" 10 (fun _ => 0)
      (fun i _ => if i = 0 then
          .httpResp 200 "" (some ⟨some ⟨some "pending", some ["x"], none⟩⟩)
        else .httpResp 200 "" (some ⟨some ⟨some "completed", some ["done"], none⟩⟩)) 3 =
      some ⟨.ok ["done"], 2⟩ := by
  decide

/-- C4 amended: processing is not singled out - every present string status
other than completed and failed is treated as non-terminal: the wait loop
sleeps and issues the next poll rather than failing.  Only a malformed
response (missing data map or missing/non-string status) is a protocol
error. -/
theorem c4_amended_unrecognized_status_polls_again (c : Api.Client) (reqId : String)
    (timeout : ℚ) (elapsed : Nat → ℚ) (o : Nat → Nat → Api.PollExchange)
    (k fuel : Nat) (m : Api.RespMap) (d : Api.PollData) (st : String)
    (hd : ¬(0 < timeout ∧ timeout ≤ elapsed k))
    (hres : (Api.getResult c reqId (o k)).res = .ok m)
    (hdata : m.data = some d) (hst : d.status = some st)
    (hc : st ≠ "completed") (hf : st ≠ "failed") :
    Api.waitAux c reqId timeout elapsed o k (fuel + 1) =
      Option.map (fun w => ⟨w.res, w.polls + 1⟩)
        (Api.waitAux c reqId timeout elapsed o (k + 1) fuel) :=
  Api.waitAux_step_nonterminal c reqId timeout elapsed o k fuel m d st
    hd hres hdata hst hc hf

/-- Witness for C4 amended: a pending response at iteration 0 makes the loop
continue into iteration 1. -/
theorem c4_amended_unrecognized_status_polls_again_witness :
    ("pending" ≠ "completed" ∧ "pending" ≠ "failed") ∧
    Api.waitAux ⟨"key", "b", 10, 0, 0, 1⟩ "t1" 10 (fun _ => 0)
        (fun _ _ => .httpResp 200 "" (some ⟨some ⟨some "pending", some ["x"], none⟩⟩)) 0 2 =
      Option.map (fun w => ⟨w.res, w.polls + 1⟩)
        (Api.waitAux ⟨"key", "b", 10, 0, 0, 1⟩ "t1" 10 (fun _ => 0)
          (fun _ _ => .httpResp 200 "" (some ⟨some ⟨some "pending", some ["x"], none⟩⟩)) 1 1) :=
  ⟨⟨by decide, by decide⟩,
    c4_amended_unrecognized_status_polls_again ⟨"key", "b", 10, 0, 0, 1⟩ "t1" 10
      (fun _ => 0)
      (fun _ _ => .httpResp 200 "" (some ⟨some ⟨some "pending", some ["x"], none⟩⟩)) 0 1
      ⟨some ⟨some "pending", some ["x"], none⟩⟩ ⟨some "pending", some ["x"], none⟩
      "pending" (by decide) (by decide) (by decide) (by decide) (by decide) (by decide)⟩

/-- C7: In sync mode a submit response decoding to status completed yields
the normalized RunResult (the outputs sequence) without any poll exchange,
and a submit response with status failed fails with the prediction-failed
error (task id plus message) without any poll exchange.  The third part
shows the shape agreement with the async path: at an async terminal success
carrying the same outputs, Run produces the identical normalized payload
Except.ok pred.outputs. -/
theorem c7_sync_mode_terminal (c : Api.Client) (model : String) (timeout : ℚ)
    (taskRetries : Nat) (os : Nat → Api.AttemptOracle) (waitFuel : Nat)
    (b : String) (pred : Api.Prediction)
    (hkey : c.apiKey ≠ "")
    (hsub : (os 0).submitO 0 = .httpResp 200 b (some pred)) :
    (pred.status = "completed" →
      Api.run c model true timeout taskRetries os waitFuel =
        some ⟨.ok pred.outputs, 1, 1, 0, []⟩) ∧
    (pred.status = "failed" →
      Api.run c model true timeout taskRetries os waitFuel =
        some ⟨.error (.syncFailed (if pred.id = "" then "unknown" else pred.id)
          (if pred.error = "" then "Unknown error" else pred.error)), 1, 1, 0, []⟩) ∧
    (∀ (os2 : Nat → Api.AttemptOracle) (waitFuel2 : Nat) (b2 : String)
        (pred2 : Api.Prediction) (k : Nat) (m : Api.RespMap) (d : Api.PollData),
      (os2 0).submitO 0 = .httpResp 200 b2 (some pred2) → pred2.id ≠ "" →
      (∀ i, i < k → ¬(0 < timeout ∧ timeout ≤ (os2 0).elapsed i) ∧
          Api.nonTerminalPoll (Api.getResult c pred2.id ((os2 0).pollO i)) = true) →
      ¬(0 < timeout ∧ timeout ≤ (os2 0).elapsed k) →
      (Api.getResult c pred2.id ((os2 0).pollO k)).res = .ok m →
      m.data = some d → d.status = some "completed" → d.outputs = some pred.outputs →
      k < waitFuel2 →
      Api.run c model false timeout taskRetries os2 waitFuel2 =
        some ⟨.ok pred.outputs, 1, 1, k + 1, []⟩) := by
  have hsubmit := Api.submit_response c model true (os 0).submitO (fun _ => "") 0 200 b
    (some pred) hkey (Nat.zero_le _) (fun i hi => absurd hi (Nat.not_lt_zero i)) hsub
  have hres : (Api.submit c model true (os 0).submitO).res = .ok ("", some pred) := by
    rw [hsubmit]; simp [Api.submitRespond]
  have hatt : (Api.submit c model true (os 0).submitO).attempts = 1 := by rw [hsubmit]
  refine ⟨?_, ?_, ?_⟩
  · intro hstatus
    rw [Api.run, Api.runAux_ok_sync c model timeout taskRetries os waitFuel 0 taskRetries
      "" (some pred) hres, hatt]
    simp [Api.runSyncExtract, hstatus]
  · intro hstatus
    rw [Api.run, Api.runAux_ok_sync c model timeout taskRetries os waitFuel 0 taskRetries
      "" (some pred) hres, hatt]
    simp [Api.runSyncExtract, hstatus]
  · intro os2 waitFuel2 b2 pred2 k m d hsub2 hid2 hnt hdk hres2 hdata hst houts hfuel
    rw [Api.run_async_terminal c model timeout taskRetries os2 waitFuel2 b2 pred2 k m d
      "completed" hkey hsub2 hid2 hnt hdk hres2 hdata hst (Or.inl rfl) hfuel]
    simp [houts]

/-- Witness for C7: a completed sync response with outputs, a failed sync
response, and an async run reaching completed with the same outputs. -/
theorem c7_sync_mode_terminal_witness :
    Api.run ⟨"key", "b", 10, 0, 5, 1⟩ "m" true 10 0
      (fun _ => ⟨fun _ => .httpResp 200 "body" (some ⟨"t1", "m", "completed", ["img"], ""⟩),
        fun _ _ => .transportErr "unused", fun _ => 0⟩) 1 =
      some ⟨.ok ["img"], 1, 1, 0, []⟩ ∧
    Api.run ⟨"key", "b", 10, 0, 5, 1⟩ "m" true 10 0
      (fun _ => ⟨fun _ => .httpResp 200 "body" (some ⟨"t2", "m", "failed", [], "boom"⟩),
        fun _ _ => .transportErr "unused", fun _ => 0⟩) 1 =
      some ⟨.error (.syncFailed "t2" "boom"), 1, 1, 0, []⟩ ∧
    Api.run ⟨"key", "b", 10, 0, 5, 1⟩ "m" false 10 0
      (fun _ => ⟨fun _ => .httpResp 200 "body" (some ⟨"t3", "m", "processing", [], ""⟩),
        fun _ _ => .httpResp 200 "" (some ⟨some ⟨some "completed", some ["img"], none⟩⟩),
        fun _ => 0⟩) 2 =
      some ⟨.ok ["img"], 1, 1, 1, []⟩ := by
  refine ⟨?_, ?_, ?_⟩
  · have h := (c7_sync_mode_terminal ⟨"key", "b", 10, 0, 5, 1⟩ "m" 10 0
      (fun _ => ⟨fun _ => .httpResp 200 "body" (some ⟨"t1", "m", "completed", ["img"], ""⟩),
        fun _ _ => .transportErr "unused", fun _ => 0⟩) 1 "body"
      ⟨"t1", "m", "completed", ["img"], ""⟩ (by decide) (by decide)).1 rfl
    exact h
  · have h := (c7_sync_mode_terminal ⟨"key", "b", 10, 0, 5, 1⟩ "m" 10 0
      (fun _ => ⟨fun _ => .httpResp 200 "body" (some ⟨"t2", "m", "failed", [], "boom"⟩),
        fun _ _ => .transportErr "unused", fun _ => 0⟩) 1 "body"
      ⟨"t2", "m", "failed", [], "boom"⟩ (by decide) (by decide)).2.1 rfl
    simpa using h
  · have h := (c7_sync_mode_terminal ⟨"key", "b", 10, 0, 5, 1⟩ "m" 10 0
      (fun _ => ⟨fun _ => .httpResp 200 "body" (some ⟨"t1", "m", "completed", ["img"], ""⟩),
        fun _ _ => .transportErr "unused", fun _ => 0⟩) 1 "body"
      ⟨"t1", "m", "completed", ["img"], ""⟩ (by decide) (by decide)).2.2
      (fun _ => ⟨fun _ => .httpResp 200 "body" (some ⟨"t3", "m", "processing", [], ""⟩),
        fun _ _ => .httpResp 200 "" (some ⟨some ⟨some "completed", some ["img"], none⟩⟩),
        fun _ => 0⟩) 2 "body" ⟨"t3", "m", "processing", [], ""⟩ 0
      ⟨some ⟨some "completed", some ["img"], none⟩⟩ ⟨some "completed", some ["img"], none⟩
      (by decide) (by decide) (by decide) (by decide) (by decide) (by decide) (by decide)
      (by decide) (by decide)
    exact h

/-- C8: For every Run call whose first submit exchange is answered by a 4xx
response whose status error is not classified retryable, Run returns that
status error after a single submit attempt, with no sleep and no task-level
retry consumed, whatever the task-retry budget. -/
theorem c8_non_retryable_4xx_immediate (c : Api.Client) (model : String) (sync : Bool)
    (timeout : ℚ) (taskRetries : Nat) (os : Nat → Api.AttemptOracle) (waitFuel : Nat)
    (code : Nat) (body : String) (dec : Option Api.Prediction)
    (hkey : c.apiKey ≠ "")
    (hsub : (os 0).submitO 0 = .httpResp code body dec)
    (h4 : 400 ≤ code) (h5 : code < 500)
    (hnr : Api.isRetryableError (Api.SubmitErr.httpStatus code body).msg = false) :
    Api.run c model sync timeout taskRetries os waitFuel =
      some ⟨.error (.submitErr (.httpStatus code body)), 1, 1, 0, []⟩ := by
  have hne : code ≠ 200 := by omega
  have hsubmit := Api.submit_response c model sync (os 0).submitO (fun _ => "") 0 code
    body dec hkey (Nat.zero_le _) (fun i hi => absurd hi (Nat.not_lt_zero i)) hsub
  have hres : (Api.submit c model sync (os 0).submitO).res =
      .error (.httpStatus code body) := by
    rw [hsubmit]; simp [Api.submitRespond, hne]
  have hatt : (Api.submit c model sync (os 0).submitO).attempts = 1 := by rw [hsubmit]
  rw [Api.run, Api.runAux_err_stop c model sync timeout taskRetries os waitFuel 0
    taskRetries (.httpStatus code body) hres (Or.inl hnr), hatt]

/-- Witness for C8: an HTTP 404 on submit with budget 3 returns at once
after one attempt and one exchange. -/
theorem c8_non_retryable_4xx_immediate_witness :
    Api.isRetryableError (Api.SubmitErr.httpStatus 404 "Not Found").msg = false ∧
    Api.run ⟨"key", "b", 10, 0, 5, 1⟩ "m" false 10 3
      (fun _ => ⟨fun _ => .httpResp 404 "Not Found" none,
        fun _ _ => .transportErr "unused", fun _ => 0⟩) 1 =
      some ⟨.error (.submitErr (.httpStatus 404 "Not Found")), 1, 1, 0, []⟩ :=
  ⟨by decide,
    c8_non_retryable_4xx_immediate ⟨"key", "b", 10, 0, 5, 1⟩ "m" false 10 3 _ 1 404
      "Not Found" none (by decide) (by decide) (by decide) (by decide) (by decide)⟩

/-- C10: In sync mode any submit response whose decoded status is not
completed - including processing and the empty status a missing JSON field
decodes to - makes Run fail with the prediction-failed error carrying the
response id (or unknown when empty) and its error message (or Unknown error
when empty), with no poll exchange ever issued. -/
theorem c10_sync_non_completed (c : Api.Client) (model : String) (timeout : ℚ)
    (taskRetries : Nat) (os : Nat → Api.AttemptOracle) (waitFuel : Nat)
    (b : String) (pred : Api.Prediction)
    (hkey : c.apiKey ≠ "")
    (hsub : (os 0).submitO 0 = .httpResp 200 b (some pred))
    (hne : pred.status ≠ "completed") :
    Api.run c model true timeout taskRetries os waitFuel =
      some ⟨.error (.syncFailed (if pred.id = "" then "unknown" else pred.id)
        (if pred.error = "" then "Unknown error" else pred.error)), 1, 1, 0, []⟩ := by
  have hsubmit := Api.submit_response c model true (os 0).submitO (fun _ => "") 0 200 b
    (some pred) hkey (Nat.zero_le _) (fun i hi => absurd hi (Nat.not_lt_zero i)) hsub
  have hres : (Api.submit c model true (os 0).submitO).res = .ok ("", some pred) := by
    rw [hsubmit]; simp [Api.submitRespond]
  have hatt : (Api.submit c model true (os 0).submitO).attempts = 1 := by rw [hsubmit]
  rw [Api.run, Api.runAux_ok_sync c model timeout taskRetries os waitFuel 0 taskRetries
    "" (some pred) hres, hatt]
  simp [Api.runSyncExtract, hne]

/-- Witness for C10: a sync response with the non-terminal status processing
and empty id and error fields yields the prediction-failed error with the
defaults unknown and Unknown error, and no poll. -/
theorem c10_sync_non_completed_witness :
    ("processing" : String) ≠ "completed" ∧
    Api.run ⟨"key", "b", 10, 0, 5, 1⟩ "m" true 10 0
      (fun _ => ⟨fun _ => .httpResp 200 "body" (some ⟨"", "m", "processing", [], ""⟩),
        fun _ _ => .transportErr "unused", fun _ => 0⟩) 1 =
      some ⟨.error (.syncFailed "unknown" "Unknown error"), 1, 1, 0, []⟩ := by
  refine ⟨by decide, ?_⟩
  have h := c10_sync_non_completed ⟨"key", "b", 10, 0, 5, 1⟩ "m" 10 0
    (fun _ => ⟨fun _ => .httpResp 200 "body" (some ⟨"", "m", "processing", [], ""⟩),
      fun _ _ => .transportErr "unused", fun _ => 0⟩) 1 "body"
    ⟨"", "m", "processing", [], ""⟩ (by decide) (by decide) (by decide)
  simpa using h

/-- Counterexample to C3 as stated: in the api client, a full async attempt
that fails during the poll phase with a connection-exhausted error - an
error the client itself classifies as retryable - is returned at once even
though the task-retry budget (taskRetries = 1) remains: exactly one submit
occurs (submits = 1) and no second attempt is made, because api Run returns
the wait outcome without classifying it.  Only submit-phase failures reach
the retry classification in api Run. -/
theorem c3_counterexample :
    Api.run ⟨"key", "b", 10, 0, 0, 1⟩ "m" false 10 1
      (fun _ => ⟨fun _ => .httpResp 200 "body" (some ⟨"t1", "m", "processing", [], ""⟩),
        fun _ _ => .transportErr "connection refused", fun _ => 0⟩) 2 =
      some ⟨.error (.waitErr (.getErr (.connExhausted "t1" 1 "connection refused"))),
        1, 1, 1, []⟩ ∧
    Api.isRetryableError (Api.GetErr.connExhausted "t1" 1 "connection refused").msg =
      true :=
  ⟨by decide, by decide⟩

/-- C3 amended: the full-attempt retry - a fresh submit producing a fresh
task handle followed by a fresh poll sequence, including on a transient
failure that arose during the poll phase - is the behaviour of the
wavespeed client, whose runWithContext wraps the entire runOnce
(submit plus poll) in the task-retry loop; the api client retries only
submit-phase failures.  Here: if the first whole attempt fails retryably
and budget remains and the second whole attempt (fresh submit, fresh
polls) succeeds, runWithContext returns the prediction of the second attempt
after two attempts and one back-off sleep. -/
theorem c3_amended_full_attempt_retry (c : Ws.Client) (modelId : String)
    (reqTimeout : ℚ) (taskRetries : Nat) (os : Nat → Ws.AttemptO) (pollFuel : Nat)
    (once0 once1 : Ws.OnceOut) (e : Ws.WsErr) (pred : Ws.Prediction)
    (hm : modelId ≠ "")
    (h0 : Ws.runOnce c false reqTimeout (os 0) pollFuel = some once0)
    (he : once0.res = .error e)
    (hr : Ws.isRetryable e.msg = true)
    (hb : 0 < taskRetries)
    (h1 : Ws.runOnce c false reqTimeout (os 1) pollFuel = some once1)
    (hok : once1.res = .ok pred) :
    Ws.runWithContext c modelId false reqTimeout taskRetries os pollFuel =
      some ⟨.ok pred, 2, once1.exch + once0.exch, [c.retryInterval]⟩ := by
  obtain ⟨S, rfl⟩ : ∃ S, taskRetries = S + 1 := ⟨taskRetries - 1, by omega⟩
  rw [Ws.runWithContext, if_neg hm,
    Ws.runAux_retry c false reqTimeout (S + 1) os pollFuel 0 (S + 1) once0 e h0 he hr
      (by omega),
    Ws.runAux_ok c false reqTimeout (S + 1) os pollFuel 1 S once1 pred h1 hok]
  simp

/-- Witness for C3 amended: attempt 0 submits successfully (handle t1) and
then fails in the poll phase with a retryable connection-exhausted error;
attempt 1 is a complete fresh attempt: a fresh submit yielding the fresh
handle t2 and a fresh poll sequence reaching completed.  runWithContext
returns the prediction of the second attempt. -/
theorem c3_amended_full_attempt_retry_witness :
    Ws.isRetryable (Ws.WsErr.getConnExhausted 1 "connection refused").msg = true ∧
    Ws.runWithContext ⟨"key", 1, 0, 1, 1, 10⟩ "m" false 10 1
      (fun a => if a = 0 then
          ⟨fun _ => .httpResp 200 "" (some ⟨200, "ok", ⟨"t1", "m", "processing", [], ""⟩⟩),
            fun _ _ => .transportErr "connection refused", fun _ => false⟩
        else
          ⟨fun _ => .httpResp 200 "" (some ⟨200, "ok", ⟨"t2", "m", "processing", [], ""⟩⟩),
            fun _ _ => .httpResp 200 "" (some ⟨200, "ok", ⟨"t2", "m", "completed", ["img"], ""⟩⟩),
            fun _ => false⟩) 2 =
      some ⟨.ok ⟨"t2", "m", "completed", ["img"], ""⟩, 2, 4, [1]⟩ := by
  refine ⟨by decide, ?_⟩
  have h := c3_amended_full_attempt_retry ⟨"key", 1, 0, 1, 1, 10⟩ "m" 10 1
    (fun a => if a = 0 then
        ⟨fun _ => .httpResp 200 "" (some ⟨200, "ok", ⟨"t1", "m", "processing", [], ""⟩⟩),
          fun _ _ => .transportErr "connection refused", fun _ => false⟩
      else
        ⟨fun _ => .httpResp 200 "" (some ⟨200, "ok", ⟨"t2", "m", "processing", [], ""⟩⟩),
          fun _ _ => .httpResp 200 "" (some ⟨200, "ok", ⟨"t2", "m", "completed", ["img"], ""⟩⟩),
          fun _ => false⟩) 2
    ⟨.error (.getConnExhausted 1 "connection refused"), 2⟩
    ⟨.ok ⟨"t2", "m", "completed", ["img"], ""⟩, 2⟩
    (.getConnExhausted 1 "connection refused") ⟨"t2", "m", "completed", ["img"], ""⟩
    (by decide) (by decide) (by decide) (by decide) (by decide) (by decide) (by decide)
  simpa using h

/-- Counterexample to C9 as stated: the api client performs no validation of
the model identifier anywhere - neither Run nor submit checks it - so at
this concrete input a Run call with the empty model identifier goes through
a full HTTP exchange (exchanges = 1) and returns outputs instead of failing
with an invalid-argument error before any exchange. -/
theorem c9_counterexample :
    Api.run ⟨"key", "b", 10, 0, 5, 1⟩ "" true 10 0
      (fun _ => ⟨fun _ => .httpResp 200 "body" (some ⟨"t1", "m", "completed", ["img"], ""⟩),
        fun _ _ => .transportErr "unused", fun _ => 0⟩) 1 =
      some ⟨.ok ["img"], 1, 1, 0, []⟩ := by
  decide

/-- C9 amended: the empty-model check lives in the wavespeed client, in
runWithContext, not in submit: there, every Run call with an empty model
identifier fails with the invalid-argument error (modelID is required)
before any HTTP exchange (zero attempts, zero exchanges); the api client
performs no model validation at all. -/
theorem c9_amended_empty_model_checked_before_exchange (c : Ws.Client) (sync : Bool)
    (reqTimeout : ℚ) (taskRetries : Nat) (os : Nat → Ws.AttemptO) (pollFuel : Nat) :
    Ws.runWithContext c "" sync reqTimeout taskRetries os pollFuel =
      some ⟨.error .invalidModel, 0, 0, []⟩ := by
  simp [Ws.runWithContext]

end WaveSpeed
